import Mathlib

/-!
Shallow embedding of the CodeGuard static-analysis entrypoint
(src/StaticAnalysis/code/analyze.py) and proofs about its extraction
and fusion logic.

Modelling conventions:
- A Python str is a list of characters (PyStr); str.split and
  str.join are splitNl and joinNl below.
- Python floats coming from the classifiers are modelled as exact
  rationals; the two-decimal float format specifier is modelled as
  round-half-even to hundredths (fmt2).
- Python dict key access d[k] on an optional bundle field is modelled
  with Option: keyGet raises (Except.error) when the key is absent,
  like a KeyError; list indexing raises like an IndexError when out of
  range.  The regex word and space classes are modelled over their
  ASCII range.
- The three classifiers are opaque collaborators: analyze_file takes
  them, and the result of reading the file, as arguments; each may
  raise (Except.error) with a message.
-/

abbrev PyStr := List Char

/-- Python code.split with the newline separator: splitting the empty
string yields one empty line. -/
def splitNl : PyStr → List PyStr
  | [] => [[]]
  | c :: rest =>
    if c = '\n' then [] :: splitNl rest
    else
      match splitNl rest with
      | [] => [[c]]
      | l :: ls => (c :: l) :: ls

/-- Python newline.join of a list of lines. -/
def joinNl : List PyStr → PyStr
  | [] => []
  | [l] => l
  | l :: ls => l ++ '\n' :: joinNl ls

/-- A word character of the regex class, over the ASCII range. -/
def isWordChar (c : Char) : Bool := c.isAlphanum || c = '_'

/-- A whitespace character of the regex class, over the ASCII range. -/
def isSpaceChar (c : Char) : Bool :=
  c = ' ' || c = '\t' || c = '\n' || c = '\r' || c = '\x0b' || c = '\x0c'

/-- Does the function-declaration pattern match at the start of this
suffix?  The pattern is: one or more word characters, then whitespace,
then a parenthesized run of characters other than the closing
parenthesis, then whitespace, then an opening brace.  The optional
leading type token of the source pattern does not change whether some
suffix matches, so it is dropped.  Because the character classes are
disjoint from each separator, greedy scanning decides existence. -/
def matchAt (l : PyStr) : Bool :=
  match l with
  | [] => false
  | c :: _ =>
    isWordChar c &&
      (match (l.dropWhile isWordChar).dropWhile isSpaceChar with
       | d :: l3 =>
         decide (d = '(') &&
           (match l3.dropWhile (fun e => !(decide (e = ')'))) with
            | e :: l5 =>
              decide (e = ')') &&
                (match l5.dropWhile isSpaceChar with
                 | f :: _ => decide (f = '\x7b')
                 | [] => false)
            | [] => false)
       | [] => false)

/-- Python re.search truthiness of the function pattern on one line:
the pattern matches at some position. -/
def lineMatches (l : PyStr) : Bool := l.tails.any matchAt

/-- The running brace balance added by one line: occurrences of the
opening brace minus occurrences of the closing brace. -/
def braceDelta (l : PyStr) : Int :=
  (l.count '\x7b' : Int) - (l.count '\x7d' : Int)

/-- The inner loop of extract_functions: starting from the candidate
line (the head of ls) with running balance bal, return the number of
additional lines consumed until the balance first returns to zero, or
none when it never does before the end of the file. -/
def scanBody : List PyStr → Int → Option Nat
  | [], _ => none
  | l :: ls, bal =>
    let b := bal + braceDelta l
    if b = 0 then some 0
    else (scanBody ls b).map (fun n => n + 1)

structure FunctionUnit where
  code : PyStr
  start_line : Nat
  end_line : Nat
  deriving DecidableEq, Repr

/-- The outer loop of extract_functions: ls is the suffix of the line
list starting at 0-based line index i.  Every line is examined as a
candidate, including lines inside a span already consumed by an
earlier candidate. -/
def extractAux : Nat → List PyStr → List FunctionUnit
  | _, [] => []
  | i, l :: rest =>
    (if lineMatches l then
      match scanBody (l :: rest) 0 with
      | some m =>
        [{ code := joinNl ((l :: rest).take (m + 1)),
           start_line := i + 1,
           end_line := i + m + 1 }]
      | none => []
     else []) ++ extractAux (i + 1) rest

/-- extract_functions: scan all lines for candidates; if no unit was
produced, fall back to one unit covering the whole file. -/
def extract_functions (code : PyStr) : List FunctionUnit :=
  let lines := splitNl code
  let functions := extractAux 0 lines
  if functions = [] then
    [{ code := code, start_line := 1, end_line := lines.length }]
  else functions

/-! Fusion engine: the classifier result bundles and the loop of
analyze_file that merges them into vulnerability records. -/

/-- Result dict of the vulnerability classifier; a field is none when
the key is absent from the dict. -/
structure VulnResult where
  batch_vul_pred : Option (List Int)
  batch_line_scores : Option (List (List Rat))
  batch_vul_pred_prob : Option (List Rat)

/-- Result dict of the CWE classifier. -/
structure CweResult where
  cwe_id : Option (List String)
  cwe_id_prob : Option (List Rat)

/-- Result dict of the severity classifier. -/
structure SevResult where
  batch_sev_class : Option (List String)
  batch_sev_score : Option (List Rat)

/-- Python d[k] on a dict field: KeyError when the key is absent. -/
def keyGet {α : Type} (k : String) : Option α → Except String α
  | some v => Except.ok v
  | none => Except.error ("KeyError: " ++ k)

/-- Python l[i]: IndexError when the index is out of range. -/
def listGet {α : Type} (l : List α) (i : Nat) : Except String α :=
  match l[i]? with
  | some x => Except.ok x
  | none => Except.error "IndexError: list index out of range"

/-- The conditional access idiom of the source, d[k][i] if k in d else
default: the default is used only when the whole key is absent; a
present key with a too-short list still raises an IndexError. -/
def condGet {α : Type} (f : Option (List α)) (i : Nat) (dflt : α) : Except String α :=
  match f with
  | some l => listGet l i
  | none => Except.ok dflt

/-- Python max on a list, left fold keeping the running maximum; the
empty case never arises because the caller guards on non-emptiness. -/
def pyMax : List Rat → Rat
  | [] => 0
  | x :: xs => xs.foldl max x

/-- Python l.index(x): the first index holding x. -/
def pyIndexOf (x : Rat) (l : List Rat) : Nat :=
  l.findIdx (fun y => decide (y = x))

/-- Lines 92-98 of the source: the reported line for one vulnerable
function, from its unit and its line-score list. -/
def vulnLine (func : FunctionUnit) (line_scores : List Rat) : Nat :=
  if line_scores.isEmpty then func.start_line
  else func.start_line + pyIndexOf (pyMax line_scores) line_scores

/-- Round a rational, scaled to hundredths, half to even — the
rounding of the two-decimal float format specifier.  Computed on the
numerator and denominator: with t = 100 num and d = den, the floor of
t/d is Euclidean division by the positive d, and the fractional part
r/d is compared against one half as 2r versus d. -/
def roundHalfEven100 (q : Rat) : Int :=
  let t : Int := q.num * 100
  let d : Int := (q.den : Int)
  let f := Int.ediv t d
  let r := Int.emod t d
  if 2 * r < d then f
  else if d < 2 * r then f + 1
  else if f % 2 = 0 then f else f + 1

/-- Render a nonnegative count of hundredths as a decimal numeral with
two places. -/
def fmt2Nat (m : Nat) : String :=
  toString (m / 100) ++ "." ++
    (if m % 100 < 10 then "0" ++ toString (m % 100) else toString (m % 100))

/-- The two-decimal float format specifier, on exact rationals. -/
def fmt2 (q : Rat) : String :=
  let n := roundHalfEven100 q
  if n < 0 then "-" ++ fmt2Nat n.natAbs else fmt2Nat n.natAbs

structure Vulnerability where
  id : String
  type : String
  severity : String
  message : String
  line : Nat
  cweId : String
  cweDescription : String
  source : String
  probability : Rat
  severityScore : Rat
  deriving DecidableEq, Repr

/-- One iteration of the fusion loop of analyze_file (lines 86-120 of
the source) at unit index i: ok none when the index is skipped, ok
(some v) when a vulnerability record is appended, error when a lookup
raises. -/
def analyzeOne (v : VulnResult) (c : CweResult) (s : SevResult)
    (i : Nat) (func : FunctionUnit) : Except String (Option Vulnerability) := do
  let preds ← keyGet "batch_vul_pred" v.batch_vul_pred
  let pred ← listGet preds i
  if pred = 1 then do
    let line_scores ← condGet v.batch_line_scores i []
    let vuln_line := vulnLine func line_scores
    let cwe_id ← condGet c.cwe_id i "CWE-119"
    let cwe_prob ← condGet c.cwe_id_prob i (mkRat 1 2)
    let severity ← condGet s.batch_sev_class i "Medium"
    let severity_score ← condGet s.batch_sev_score i (5 : Rat)
    let probs ← keyGet "batch_vul_pred_prob" v.batch_vul_pred_prob
    let prob ← listGet probs i
    pure (some
      { id := "STATIC-" ++ toString (i + 1)
        type := "static"
        severity := severity
        message := "Potential " ++ cwe_id ++ " vulnerability detected"
        line := vuln_line
        cweId := cwe_id
        cweDescription :=
          cwe_id ++ " vulnerability with " ++ fmt2 cwe_prob ++ " confidence"
        source := "CodeGuard Static Analysis"
        probability := prob
        severityScore := severity_score })
  else pure none

/-- The fusion loop over enumerate(functions), starting at index i. -/
def buildVulnsAux (v : VulnResult) (c : CweResult) (s : SevResult) :
    Nat → List FunctionUnit → Except String (List Vulnerability)
  | _, [] => Except.ok []
  | i, func :: rest => do
    let o ← analyzeOne v c s i func
    let tail ← buildVulnsAux v c s (i + 1) rest
    match o with
    | some vul => pure (vul :: tail)
    | none => pure tail

/-- Lines 84-120 of the source: build the vulnerability list. -/
def buildVulns (functions : List FunctionUnit) (v : VulnResult)
    (c : CweResult) (s : SevResult) : Except String (List Vulnerability) :=
  buildVulnsAux v c s 0 functions

structure AnalysisResult where
  vulnerabilities : List Vulnerability
  errors : List String
  deriving DecidableEq, Repr

/-- The body of the try block of analyze_file: read the file, extract
functions, invoke the three classifiers on the list of function texts,
and fuse their bundles.  Each step may raise. -/
def analyze_file_body (readFile : Except String PyStr)
    (mainVuln : List PyStr → Except String VulnResult)
    (mainCwe : List PyStr → Except String CweResult)
    (mainSev : List PyStr → Except String SevResult) :
    Except String AnalysisResult := do
  let code ← readFile
  let functions := extract_functions code
  if functions = [] then
    pure { vulnerabilities := [], errors := ["No functions found in the code"] }
  else do
    let function_codes := functions.map (fun f => f.code)
    let vuln_result ← mainVuln function_codes
    let cwe_result ← mainCwe function_codes
    let sev_result ← mainSev function_codes
    let vulnerabilities ← buildVulns functions vuln_result cwe_result sev_result
    pure { vulnerabilities := vulnerabilities, errors := [] }

/-- analyze_file: the try/except boundary converting any raised
exception into an error result. -/
def analyze_file (readFile : Except String PyStr)
    (mainVuln : List PyStr → Except String VulnResult)
    (mainCwe : List PyStr → Except String CweResult)
    (mainSev : List PyStr → Except String SevResult) : AnalysisResult :=
  match analyze_file_body readFile mainVuln mainCwe mainSev with
  | Except.ok r => r
  | Except.error e =>
    { vulnerabilities := [], errors := ["Analysis failed: " ++ e] }

/-! Lemmas about line splitting and joining. -/

theorem splitNl_ne_nil (s : PyStr) : splitNl s ≠ [] := by
  induction s with
  | nil => simp [splitNl]
  | cons c rest ih =>
    simp only [splitNl]
    split
    · simp
    · split <;> simp

theorem splitNl_no_newline (s : PyStr) :
    ∀ l ∈ splitNl s, '\n' ∉ l := by
  induction s with
  | nil =>
    intro l hl
    simp [splitNl] at hl
    simp [hl]
  | cons c rest ih =>
    intro l hl
    simp only [splitNl] at hl
    by_cases hc : c = '\n'
    · rw [if_pos hc] at hl
      rcases List.mem_cons.mp hl with h | h
      · simp [h]
      · exact ih l h
    · rw [if_neg hc] at hl
      cases h : splitNl rest with
      | nil => exact absurd h (splitNl_ne_nil rest)
      | cons hd tl =>
        rw [h] at hl
        rcases List.mem_cons.mp hl with h2 | h2
        · subst h2
          intro hm
          rcases List.mem_cons.mp hm with h3 | h3
          · exact hc h3.symm
          · exact ih hd (h ▸ List.mem_cons_self hd tl) h3
        · exact ih l (h ▸ List.mem_cons_of_mem hd h2)

theorem splitNl_of_no_newline {l : PyStr} (h : '\n' ∉ l) : splitNl l = [l] := by
  induction l with
  | nil => rfl
  | cons c rest ih =>
    have hc : ¬c = '\n' := fun e => h (e ▸ List.mem_cons_self c rest)
    have hr : '\n' ∉ rest := fun m => h (List.mem_cons_of_mem c m)
    simp only [splitNl, if_neg hc, ih hr]

theorem splitNl_append_newline {l : PyStr} (t : PyStr) (h : '\n' ∉ l) :
    splitNl (l ++ '\n' :: t) = l :: splitNl t := by
  induction l with
  | nil => simp [splitNl]
  | cons c rest ih =>
    have hc : ¬c = '\n' := fun e => h (e ▸ List.mem_cons_self c rest)
    have hr : '\n' ∉ rest := fun m => h (List.mem_cons_of_mem c m)
    simp only [List.cons_append, splitNl, if_neg hc, List.append_eq, ih hr]

theorem splitNl_joinNl :
    ∀ (L : List PyStr), L ≠ [] → (∀ l ∈ L, '\n' ∉ l) →
      splitNl (joinNl L) = L := by
  intro L
  induction L with
  | nil => intro h; exact absurd rfl h
  | cons l ls ih =>
    intro _ hnl
    cases ls with
    | nil =>
      simp only [joinNl]
      exact splitNl_of_no_newline (hnl l (List.mem_cons_self l []))
    | cons l2 ls2 =>
      have hstep : joinNl (l :: l2 :: ls2) = l ++ '\n' :: joinNl (l2 :: ls2) := rfl
      rw [hstep, splitNl_append_newline _ (hnl l (List.mem_cons_self l _)),
        ih (by simp) (fun x hx => hnl x (List.mem_cons_of_mem l hx))]

theorem mem_of_mem_splitNl (s : PyStr) :
    ∀ l ∈ splitNl s, ∀ c ∈ l, c ∈ s := by
  induction s with
  | nil =>
    intro l hl c hc
    simp [splitNl] at hl
    subst hl
    simp at hc
  | cons d rest ih =>
    intro l hl c hc
    simp only [splitNl] at hl
    by_cases hd : d = '\n'
    · rw [if_pos hd] at hl
      rcases List.mem_cons.mp hl with h | h
      · subst h; simp at hc
      · exact List.mem_cons_of_mem d (ih l h c hc)
    · rw [if_neg hd] at hl
      cases h : splitNl rest with
      | nil => exact absurd h (splitNl_ne_nil rest)
      | cons hd2 tl =>
        rw [h] at hl
        rcases List.mem_cons.mp hl with h2 | h2
        · subst h2
          rcases List.mem_cons.mp hc with h3 | h3
          · exact h3 ▸ List.mem_cons_self d rest
          · exact List.mem_cons_of_mem d
              (ih hd2 (h ▸ List.mem_cons_self hd2 tl) c h3)
        · exact List.mem_cons_of_mem d
            (ih l (h ▸ List.mem_cons_of_mem hd2 h2) c hc)

theorem scanBody_lt_length :
    ∀ (ls : List PyStr) (b : Int) (m : Nat), scanBody ls b = some m → m < ls.length := by
  intro ls
  induction ls with
  | nil => intro b m h; simp [scanBody] at h
  | cons l rest ih =>
    intro b m h
    simp only [scanBody] at h
    split at h
    · simp at h
      simp only [List.length_cons]
      omega
    · simp only [Option.map_eq_some'] at h
      obtain ⟨n, hn, hm⟩ := h
      have := ih _ n hn
      simp only [List.length_cons]
      omega

/-! Lemmas about the candidate pattern and the extraction loops. -/

theorem matchAt_brace {l : PyStr} (h : matchAt l = true) : '\x7b' ∈ l := by
  cases l with
  | nil => simp [matchAt] at h
  | cons c cs =>
    simp only [matchAt, Bool.and_eq_true] at h
    obtain ⟨-, h⟩ := h
    cases h2 : ((c :: cs).dropWhile isWordChar).dropWhile isSpaceChar with
    | nil => rw [h2] at h; simp at h
    | cons d l3 =>
      rw [h2] at h
      simp only [Bool.and_eq_true, decide_eq_true_eq] at h
      obtain ⟨-, h⟩ := h
      cases h3 : l3.dropWhile (fun e => !(decide (e = ')'))) with
      | nil => rw [h3] at h; simp at h
      | cons e l5 =>
        rw [h3] at h
        simp only [Bool.and_eq_true, decide_eq_true_eq] at h
        obtain ⟨-, h⟩ := h
        cases h4 : l5.dropWhile isSpaceChar with
        | nil => rw [h4] at h; simp at h
        | cons f l6 =>
          rw [h4] at h
          simp only [decide_eq_true_eq] at h
          have m1 : f ∈ l5 :=
            (List.dropWhile_sublist _).subset (h4 ▸ List.mem_cons_self f l6)
          have m3 : f ∈ l3 :=
            (List.dropWhile_sublist _).subset
              (h3 ▸ List.mem_cons_of_mem e m1)
          have m5 : f ∈ c :: cs :=
            (List.dropWhile_sublist _).subset
              ((List.dropWhile_sublist _).subset
                (h2 ▸ List.mem_cons_of_mem d m3))
          exact h ▸ m5

theorem lineMatches_brace {l : PyStr} (h : lineMatches l = true) : '\x7b' ∈ l := by
  simp only [lineMatches, List.any_eq_true] at h
  obtain ⟨t, ht, hm⟩ := h
  exact ((List.mem_tails _ _).mp ht).sublist.subset (matchAt_brace hm)

theorem extractAux_nil_of_no_brace :
    ∀ (ls : List PyStr) (i : Nat), (∀ l ∈ ls, '\x7b' ∉ l) → extractAux i ls = [] := by
  intro ls
  induction ls with
  | nil => intro i _; rfl
  | cons l rest ih =>
    intro i h
    have hm : lineMatches l = false := by
      cases hlm : lineMatches l
      · rfl
      · exact absurd (lineMatches_brace hlm) (h l (List.mem_cons_self l rest))
    simp [extractAux, hm, ih (i + 1) (fun x hx => h x (List.mem_cons_of_mem l hx))]

theorem extract_functions_ne_nil (code : PyStr) : extract_functions code ≠ [] := by
  simp only [extract_functions]
  split
  · simp
  · assumption

theorem mem_extract_functions_of_mem_aux {code : PyStr} {u : FunctionUnit}
    (h : u ∈ extractAux 0 (splitNl code)) : u ∈ extract_functions code := by
  simp only [extract_functions]
  split
  · rename_i he
    rw [he] at h
    simp at h
  · exact h

theorem mem_extractAux :
    ∀ (ls : List PyStr) (i : Nat) (u : FunctionUnit),
      u ∈ extractAux i ls → (∀ l ∈ ls, '\n' ∉ l) →
      i + 1 ≤ u.start_line ∧ u.start_line ≤ u.end_line ∧
        u.end_line ≤ i + ls.length ∧
        (splitNl u.code).length = u.end_line - u.start_line + 1 := by
  intro ls
  induction ls with
  | nil => intro i u hu _; simp [extractAux] at hu
  | cons l rest ih =>
    intro i u hu hnl
    simp only [extractAux] at hu
    rcases List.mem_append.mp hu with hleft | hright
    · split at hleft
      · split at hleft
        · rename_i m hm
          simp only [List.mem_singleton] at hleft
          subst hleft
          have hmlt : m < (l :: rest).length := scanBody_lt_length _ _ _ hm
          refine ⟨le_refl _, ?_, ?_, ?_⟩
          · show i + 1 ≤ i + m + 1
            omega
          · show i + m + 1 ≤ i + (l :: rest).length
            simp only [List.length_cons] at hmlt ⊢
            omega
          · have hseg : (l :: rest).take (m + 1) ≠ [] := by
              simp [List.take_succ_cons]
            have hsnl : ∀ x ∈ (l :: rest).take (m + 1), '\n' ∉ x :=
              fun x hx => hnl x (List.take_subset _ _ hx)
            show (splitNl (joinNl ((l :: rest).take (m + 1)))).length =
              (i + m + 1) - (i + 1) + 1
            rw [splitNl_joinNl _ hseg hsnl, List.length_take]
            simp only [List.length_cons] at hmlt ⊢
            omega
        · simp at hleft
      · simp at hleft
    · obtain ⟨a, b, c2, d⟩ :=
        ih (i + 1) u hright (fun x hx => hnl x (List.mem_cons_of_mem l hx))
      refine ⟨by omega, b, ?_, d⟩
      simp only [List.length_cons]
      omega

theorem extractAux_start :
    ∀ (ls : List PyStr) (i : Nat) (u : FunctionUnit),
      u ∈ extractAux i ls → i + 1 ≤ u.start_line := by
  intro ls
  induction ls with
  | nil => intro i u hu; simp [extractAux] at hu
  | cons l rest ih =>
    intro i u hu
    simp only [extractAux] at hu
    rcases List.mem_append.mp hu with hleft | hright
    · split at hleft
      · split at hleft
        · simp only [List.mem_singleton] at hleft
          subst hleft
          exact le_refl _
        · simp at hleft
      · simp at hleft
    · have := ih (i + 1) u hright
      omega

theorem extractAux_pairwise (ls : List PyStr) :
    ∀ i, List.Pairwise (fun a b => a.start_line < b.start_line) (extractAux i ls) := by
  induction ls with
  | nil => intro i; simp [extractAux]
  | cons l rest ih =>
    intro i
    simp only [extractAux]
    rw [List.pairwise_append]
    refine ⟨?_, ih (i + 1), ?_⟩
    · split
      · split
        · simp
        · simp
      · simp
    · intro a ha b hb
      have hb2 : i + 2 ≤ b.start_line := extractAux_start rest (i + 1) b hb
      have ha2 : a.start_line = i + 1 := by
        split at ha
        · split at ha
          · simp only [List.mem_singleton] at ha
            subst ha
            rfl
          · simp at ha
        · simp at ha
      omega

theorem extractAux_mem_candidate :
    ∀ (ls : List PyStr) (i0 i m : Nat) (line : PyStr),
      ls.get? i = some line → lineMatches line = true →
      scanBody (ls.drop i) 0 = some m →
      { code := joinNl ((ls.drop i).take (m + 1)),
        start_line := i0 + i + 1,
        end_line := i0 + i + m + 1 : FunctionUnit } ∈ extractAux i0 ls := by
  intro ls
  induction ls with
  | nil => intro i0 i m line hg _ _; simp at hg
  | cons l rest ih =>
    intro i0 i m line hg hlm hsb
    cases i with
    | zero =>
      have hl : l = line := by
        simpa using hg
      subst hl
      simp only [List.drop_zero] at hsb ⊢
      simp [extractAux, hlm, hsb]
    | succ j =>
      have hg' : rest.get? j = some line := by
        simpa using hg
      simp only [List.drop_succ_cons] at hsb ⊢
      have hmem := ih (i0 + 1) j m line hg' hlm hsb
      have e1 : i0 + 1 + j + 1 = i0 + (j + 1) + 1 := by omega
      have e2 : i0 + 1 + j + m + 1 = i0 + (j + 1) + m + 1 := by omega
      rw [e1, e2] at hmem
      simp only [extractAux]
      exact List.mem_append_right _ hmem

/-! Lemmas about the fusion engine. -/

theorem ok_bind {α β : Type} (a : α) (f : α → Except String β) :
    (Except.ok a >>= f) = f a := rfl

theorem error_bind {α β : Type} (e : String) (f : α → Except String β) :
    ((Except.error e : Except String α) >>= f) = Except.error e := rfl

theorem listGet_some {α : Type} {l : List α} {i : Nat} {x : α}
    (h : l[i]? = some x) : listGet l i = Except.ok x := by
  simp [listGet, h]

theorem condGet_none {α : Type} (i : Nat) (dflt : α) :
    condGet (none : Option (List α)) i dflt = Except.ok dflt := rfl

theorem condGet_some {α : Type} {l : List α} {i : Nat} {x : α}
    (h : l[i]? = some x) (dflt : α) :
    condGet (some l) i dflt = Except.ok x := by
  simp [condGet, listGet, h]

theorem le_foldl_max (xs : List Rat) : ∀ a : Rat, a ≤ xs.foldl max a := by
  induction xs with
  | nil => intro a; exact le_refl a
  | cons x xs ih => intro a; exact le_trans (le_max_left a x) (ih (max a x))

theorem mem_le_foldl_max (xs : List Rat) :
    ∀ (a x : Rat), x ∈ xs → x ≤ xs.foldl max a := by
  induction xs with
  | nil => intro a x hx; simp at hx
  | cons y ys ih =>
    intro a x hx
    rcases List.mem_cons.mp hx with h | h
    · subst h
      exact le_trans (le_max_right a x) (le_foldl_max ys (max a x))
    · exact ih (max a y) x h

theorem foldl_max_mem (xs : List Rat) :
    ∀ a : Rat, xs.foldl max a = a ∨ xs.foldl max a ∈ xs := by
  induction xs with
  | nil => intro a; left; rfl
  | cons y ys ih =>
    intro a
    rcases ih (max a y) with h | h
    · rcases max_choice a y with h2 | h2
      · left; rw [List.foldl_cons, h, h2]
      · right
        rw [List.foldl_cons, h, h2]
        exact List.mem_cons_self y ys
    · right; exact List.mem_cons_of_mem y h

theorem pyMax_mem {xs : List Rat} (h : xs ≠ []) : pyMax xs ∈ xs := by
  cases xs with
  | nil => exact absurd rfl h
  | cons x ys =>
    simp only [pyMax]
    rcases foldl_max_mem ys x with h2 | h2
    · rw [h2]; exact List.mem_cons_self x ys
    · exact List.mem_cons_of_mem x h2

theorem le_pyMax {xs : List Rat} {x : Rat} (h : x ∈ xs) : x ≤ pyMax xs := by
  cases xs with
  | nil => simp at h
  | cons y ys =>
    simp only [pyMax]
    rcases List.mem_cons.mp h with h2 | h2
    · subst h2; exact le_foldl_max ys x
    · exact mem_le_foldl_max ys y x h2

/-- The reported line of a vulnerable function with a non-empty score
list is the start line plus the first index attaining the maximum
score. -/
theorem vulnLine_spec (func : FunctionUnit) (ls : List Rat) (h : ls ≠ []) :
    ∃ k, ∃ hk : k < ls.length,
      vulnLine func ls = func.start_line + k ∧
      (∀ j (hj : j < ls.length), ls.get ⟨j, hj⟩ ≤ ls.get ⟨k, hk⟩) ∧
      (∀ j (hj : j < ls.length), j < k → ls.get ⟨j, hj⟩ < ls.get ⟨k, hk⟩) := by
  have hmem : pyMax ls ∈ ls := pyMax_mem h
  have hex : ∃ x ∈ ls, (fun y => decide (y = pyMax ls)) x = true :=
    ⟨pyMax ls, hmem, by simp⟩
  have hk : pyIndexOf (pyMax ls) ls < ls.length :=
    List.findIdx_lt_length_of_exists hex
  have hkval : ls.get ⟨pyIndexOf (pyMax ls) ls, hk⟩ = pyMax ls := by
    have hk2 : ls.findIdx (fun y => decide (y = pyMax ls)) < ls.length := hk
    have := List.findIdx_getElem (w := hk2)
    simpa [List.get_eq_getElem, pyIndexOf] using this
  refine ⟨pyIndexOf (pyMax ls) ls, hk, ?_, ?_, ?_⟩
  · have hne : ¬(ls.isEmpty = true) := by simp [h]
    simp [vulnLine, hne]
  · intro j hj
    rw [hkval]
    exact le_pyMax (ls.get_mem _ _)
  · intro j hj hjk
    have hne2 : ls.get ⟨j, hj⟩ ≠ pyMax ls := by
      have hjk2 : j < ls.findIdx (fun y => decide (y = pyMax ls)) := hjk
      have := List.not_of_lt_findIdx hjk2
      simpa [List.get_eq_getElem] using this
    rw [hkval]
    exact lt_of_le_of_ne (le_pyMax (ls.get_mem _ _)) hne2

theorem vulnLine_nil (func : FunctionUnit) : vulnLine func [] = func.start_line := rfl

theorem condGet_ok_of_inbounds {α : Type} {f : Option (List α)} {i : Nat} (dflt : α)
    (h : ∀ l, f = some l → i < l.length) :
    ∃ x, condGet f i dflt = Except.ok x ∧
      (f = none → x = dflt) ∧ (∀ l, f = some l → l[i]? = some x) := by
  cases f with
  | none => exact ⟨dflt, rfl, fun _ => rfl, by simp⟩
  | some l =>
    have hi : i < l.length := h l rfl
    refine ⟨l.get ⟨i, hi⟩, ?_, by simp, ?_⟩
    · exact condGet_some
        (by simp [List.getElem?_eq_getElem hi, List.get_eq_getElem]) dflt
    · intro l2 hl2
      injection hl2 with e
      subst e
      simp [List.getElem?_eq_getElem hi, List.get_eq_getElem]

theorem analyze_file_body_ok_errors :
    ∀ (rf : Except String PyStr)
      (mv : List PyStr → Except String VulnResult)
      (mc : List PyStr → Except String CweResult)
      (ms : List PyStr → Except String SevResult)
      (r : AnalysisResult),
      analyze_file_body rf mv mc ms = Except.ok r → r.errors = [] := by
  intro rf mv mc ms r h
  cases rf with
  | error e => exact absurd h (by simp [analyze_file_body, error_bind])
  | ok code =>
    simp only [analyze_file_body, ok_bind] at h
    rw [if_neg (extract_functions_ne_nil code)] at h
    cases hmv : mv ((extract_functions code).map fun f => f.code) with
    | error e => rw [hmv, error_bind] at h; simp at h
    | ok vres =>
      rw [hmv, ok_bind] at h
      cases hmc : mc ((extract_functions code).map fun f => f.code) with
      | error e => rw [hmc, error_bind] at h; simp at h
      | ok cres =>
        rw [hmc, ok_bind] at h
        cases hms : ms ((extract_functions code).map fun f => f.code) with
        | error e => rw [hms, error_bind] at h; simp at h
        | ok sres =>
          rw [hms, ok_bind] at h
          cases hbv : buildVulns (extract_functions code) vres cres sres with
          | error e => rw [hbv, error_bind] at h; simp at h
          | ok vl =>
            rw [hbv, ok_bind] at h
            have : r = { vulnerabilities := vl, errors := [] } := by
              cases h
              rfl
            rw [this]

example : splitNl "a\nb".data = ["a".data, "b".data] := by decide

example :
    (extract_functions "int f()\x7b\x7d".data).map
      (fun u => (u.start_line, u.end_line)) = [(1, 1)] := by decide

example :
    (extract_functions "int f()\x7b\nint g()\x7b\x7d\n\x7d".data).map
      (fun u => (u.start_line, u.end_line)) = [(1, 3), (2, 2)] := by decide

example : fmt2 (mkRat 1 2) = "0.50" := by decide
example : fmt2 (mkRat 7 10) = "0.70" := by decide

/-! Claim theorems. -/

/-- C1, counterexample: the claim that scanning resumes only after the
end line of an emitted unit fails.  On a file whose second line is a
candidate inside the span consumed by the first candidate, the
extractor emits two units whose spans overlap: (1,3) and (2,2) share
lines 2 and 3 does not, but line 2 is shared, and the second unit lies
entirely inside the first. -/
theorem extract_overlap_counterexample :
    (extract_functions "int f()\x7b\nint g()\x7b\x7d\n\x7d".data).map
      (fun u => (u.start_line, u.end_line)) = [(1, 3), (2, 2)] := by decide

/-- C1, amended: the outer scan advances one line at a time regardless
of how many lines an earlier candidate consumed, so every candidate
line whose brace balance returns to zero yields a unit — including a
candidate lying inside an already-consumed span. -/
theorem extract_rescans_consumed_lines (code : PyStr) (i m : Nat) (line : PyStr)
    (hg : (splitNl code).get? i = some line)
    (hlm : lineMatches line = true)
    (hsb : scanBody ((splitNl code).drop i) 0 = some m) :
    { code := joinNl (((splitNl code).drop i).take (m + 1)),
      start_line := i + 1, end_line := i + m + 1 : FunctionUnit } ∈
      extract_functions code := by
  have hmem := extractAux_mem_candidate (splitNl code) 0 i m line hg hlm hsb
  simp only [Nat.zero_add] at hmem
  exact mem_extract_functions_of_mem_aux hmem

/-- C1, witness: the candidate on line 2 of the counterexample file
lies inside the span (1,3) already consumed by the first candidate and
is nevertheless emitted as the unit (2,2). -/
theorem extract_rescans_consumed_lines_witness :
    (splitNl "int f()\x7b\nint g()\x7b\x7d\n\x7d".data).get? 1 =
        some "int g()\x7b\x7d".data ∧
    lineMatches "int g()\x7b\x7d".data = true ∧
    scanBody ((splitNl "int f()\x7b\nint g()\x7b\x7d\n\x7d".data).drop 1) 0 = some 0 ∧
    { code := joinNl (((splitNl "int f()\x7b\nint g()\x7b\x7d\n\x7d".data).drop 1).take 1),
      start_line := 2, end_line := 2 : FunctionUnit } ∈
      extract_functions "int f()\x7b\nint g()\x7b\x7d\n\x7d".data :=
  ⟨by decide, by decide, by decide,
    extract_rescans_consumed_lines _ 1 0 "int g()\x7b\x7d".data
      (by decide) (by decide) (by decide)⟩

/-- C6: extraction is total.  For every input string the extractor
returns a non-empty unit list, and every unit has a 1-based span
inside the file bounds with a text line count matching the span. -/
theorem extract_totality (code : PyStr) :
    extract_functions code ≠ [] ∧
    ∀ u ∈ extract_functions code,
      1 ≤ u.start_line ∧ u.start_line ≤ u.end_line ∧
        u.end_line ≤ (splitNl code).length ∧
        (splitNl u.code).length = u.end_line - u.start_line + 1 := by
  refine ⟨extract_functions_ne_nil code, ?_⟩
  intro u hu
  simp only [extract_functions] at hu
  split at hu
  · simp only [List.mem_singleton] at hu
    subst hu
    have hpos : 0 < (splitNl code).length :=
      List.length_pos.mpr (splitNl_ne_nil code)
    have h4 : (splitNl code).length = (splitNl code).length - 1 + 1 := by omega
    exact ⟨le_refl 1, hpos, le_refl _, h4⟩
  · obtain ⟨a, b, c2, d⟩ :=
      mem_extractAux (splitNl code) 0 u hu (splitNl_no_newline code)
    exact ⟨by omega, b, by omega, d⟩

/-- C6, witness: a one-function file yields a unit satisfying all four
bound conditions. -/
theorem extract_totality_witness :
    ({ code := "int f()\x7b\x7d".data, start_line := 1, end_line := 1 : FunctionUnit } ∈
        extract_functions "int f()\x7b\x7d\nint x = 3;".data) ∧
    (1 ≤ (1 : Nat) ∧ (1 : Nat) ≤ 1 ∧
      1 ≤ (splitNl "int f()\x7b\x7d\nint x = 3;".data).length ∧
      (splitNl "int f()\x7b\x7d".data).length = 1 - 1 + 1) :=
  ⟨by decide,
    (extract_totality "int f()\x7b\x7d\nint x = 3;".data).2
      { code := "int f()\x7b\x7d".data, start_line := 1, end_line := 1 }
      (by decide)⟩

/-- C7: a source text containing no brace characters yields exactly
one unit spanning the whole file, starting at line 1, ending at the
total line count, with the whole input as its text. -/
theorem extract_whole_file_no_brace (code : PyStr)
    (h1 : '\x7b' ∉ code) (_h2 : '\x7d' ∉ code) :
    extract_functions code =
      [{ code := code, start_line := 1, end_line := (splitNl code).length }] := by
  have hl : ∀ l ∈ splitNl code, '\x7b' ∉ l := fun l hl hb =>
    h1 (mem_of_mem_splitNl code l hl _ hb)
  simp [extract_functions, extractAux_nil_of_no_brace (splitNl code) 0 hl]

/-- C7, witness: a two-line brace-free file becomes a single unit
spanning lines 1 to 2 whose text is the whole input. -/
theorem extract_whole_file_no_brace_witness :
    '\x7b' ∉ "hello world\nfoo".data ∧ '\x7d' ∉ "hello world\nfoo".data ∧
    extract_functions "hello world\nfoo".data =
      [{ code := "hello world\nfoo".data, start_line := 1, end_line := 2 }] :=
  ⟨by decide, by decide,
    extract_whole_file_no_brace "hello world\nfoo".data (by decide) (by decide)⟩

/-- C8: the orchestrator boundary catches every internal fault: any
analysis result either has an empty errors list, or is exactly the
empty-findings result with one error string prefixed with the analysis
failure marker; and a failing file read yields exactly that converted
result. -/
theorem analyze_file_catches_all (rf : Except String PyStr)
    (mv : List PyStr → Except String VulnResult)
    (mc : List PyStr → Except String CweResult)
    (ms : List PyStr → Except String SevResult) :
    ((analyze_file rf mv mc ms).errors = [] ∨
      ∃ m, analyze_file rf mv mc ms =
        { vulnerabilities := [], errors := ["Analysis failed: " ++ m] }) ∧
    ∀ m, rf = Except.error m →
      analyze_file rf mv mc ms =
        { vulnerabilities := [], errors := ["Analysis failed: " ++ m] } := by
  constructor
  · cases h : analyze_file_body rf mv mc ms with
    | ok r =>
      left
      have he : analyze_file rf mv mc ms = r := by
        simp [analyze_file, h]
      rw [he]
      exact analyze_file_body_ok_errors rf mv mc ms r h
    | error e =>
      right
      refine ⟨e, ?_⟩
      simp [analyze_file, h]
  · intro m hm
    subst hm
    rfl

/-- C8, witness: an unreadable file is converted to the error result
and no exception escapes. -/
theorem analyze_file_catches_all_witness :
    analyze_file (Except.error "file not readable")
        (fun _ => Except.ok { batch_vul_pred := none, batch_line_scores := none,
                              batch_vul_pred_prob := none })
        (fun _ => Except.ok { cwe_id := none, cwe_id_prob := none })
        (fun _ => Except.ok { batch_sev_class := none, batch_sev_score := none }) =
      { vulnerabilities := [], errors := ["Analysis failed: file not readable"] } :=
  (analyze_file_catches_all (Except.error "file not readable") _ _ _).2
    "file not readable" rfl

/-- C9, counterexample: on an empty input file the claim expects one
error entry noting that no functions were found, but the extractor
returns the whole-file fallback unit even for the empty string, the
single empty function is classified, and the run returns with no error
entry at all. -/
theorem analyze_empty_file_counterexample :
    analyze_file (Except.ok "".data)
        (fun _ => Except.ok { batch_vul_pred := some [0], batch_line_scores := none,
                              batch_vul_pred_prob := some [0] })
        (fun _ => Except.ok { cwe_id := none, cwe_id_prob := none })
        (fun _ => Except.ok { batch_sev_class := none, batch_sev_score := none }) =
      { vulnerabilities := [], errors := [] } := by decide

/-- C9, amended: the zero-units branch of analyze is unreachable
because extraction always returns at least one unit (the empty file
yields the fallback unit for line 1); every successful analysis run
has an empty errors list, so the no-functions error entry is never
produced. -/
theorem analyze_success_has_no_errors (rf : Except String PyStr)
    (mv : List PyStr → Except String VulnResult)
    (mc : List PyStr → Except String CweResult)
    (ms : List PyStr → Except String SevResult)
    (r : AnalysisResult)
    (h : analyze_file_body rf mv mc ms = Except.ok r) :
    r.errors = [] :=
  analyze_file_body_ok_errors rf mv mc ms r h

/-- C9, witness: the empty-file run succeeds with an empty errors
list. -/
theorem analyze_success_has_no_errors_witness :
    analyze_file_body (Except.ok "".data)
        (fun _ => Except.ok { batch_vul_pred := some [0], batch_line_scores := none,
                              batch_vul_pred_prob := some [0] })
        (fun _ => Except.ok { cwe_id := some ["CWE-20"], cwe_id_prob := none })
        (fun _ => Except.ok { batch_sev_class := none, batch_sev_score := none }) =
      Except.ok { vulnerabilities := [], errors := [] } ∧
    ({ vulnerabilities := [], errors := [] } : AnalysisResult).errors = [] :=
  ⟨by rfl,
    analyze_success_has_no_errors (Except.ok "".data)
      (fun _ => Except.ok { batch_vul_pred := some [0], batch_line_scores := none,
                            batch_vul_pred_prob := some [0] })
      (fun _ => Except.ok { cwe_id := some ["CWE-20"], cwe_id_prob := none })
      (fun _ => Except.ok { batch_sev_class := none, batch_sev_score := none })
      { vulnerabilities := [], errors := [] } (by rfl)⟩

/-- C10: the units returned by extraction have strictly increasing
start lines — they appear in file order of their candidate lines, even
when their spans overlap. -/
theorem extract_start_lines_strictly_increasing (code : PyStr) :
    List.Pairwise (fun a b => a.start_line < b.start_line)
      (extract_functions code) := by
  simp only [extract_functions]
  split
  · simp
  · exact extractAux_pairwise _ 0

theorem pure_eq_ok {α : Type} (a : α) : (pure a : Except String α) = Except.ok a := rfl

/-- C2, counterexample: the claim that finding ids are sequential over
emitted findings only fails.  With two units of which only the second
is predicted vulnerable, the single (first) emitted finding has id
STATIC-2, taken from the unit index, not STATIC-1. -/
theorem finding_id_counterexample :
    (analyze_file (Except.ok "int f()\x7b\x7d\nint g()\x7b\x7d".data)
        (fun _ => Except.ok { batch_vul_pred := some [0, 1], batch_line_scores := none,
                              batch_vul_pred_prob := some [0, 0] })
        (fun _ => Except.ok { cwe_id := none, cwe_id_prob := none })
        (fun _ => Except.ok { batch_sev_class := none, batch_sev_score := none })
      ).vulnerabilities.map (fun r => r.id) = ["STATIC-2"] := by decide

/-- C2, amended: a finding emitted at unit index i (0-based) always
has id STATIC-(i+1), derived from the unit index alone, independent of
how many findings were emitted before it. -/
theorem finding_id_from_unit_index (v : VulnResult) (c : CweResult) (s : SevResult)
    (i : Nat) (func : FunctionUnit) (r : Vulnerability)
    (h : analyzeOne v c s i func = Except.ok (some r)) :
    r.id = "STATIC-" ++ toString (i + 1) := by
  simp only [analyzeOne] at h
  cases hv : v.batch_vul_pred with
  | none => rw [hv] at h; simp [keyGet, error_bind] at h
  | some ps =>
    rw [hv] at h
    simp only [keyGet, ok_bind] at h
    cases hLG : listGet ps i with
    | error e => rw [hLG, error_bind] at h; simp at h
    | ok p =>
      rw [hLG, ok_bind] at h
      by_cases hp1 : p = 1
      · rw [if_pos hp1] at h
        cases h1 : condGet v.batch_line_scores i [] with
        | error e => rw [h1, error_bind] at h; simp at h
        | ok ls0 =>
          rw [h1, ok_bind] at h
          cases h2 : condGet c.cwe_id i "CWE-119" with
          | error e => rw [h2, error_bind] at h; simp at h
          | ok cid =>
            rw [h2, ok_bind] at h
            cases h3 : condGet c.cwe_id_prob i (mkRat 1 2) with
            | error e => rw [h3, error_bind] at h; simp at h
            | ok cp =>
              rw [h3, ok_bind] at h
              cases h4 : condGet s.batch_sev_class i "Medium" with
              | error e => rw [h4, error_bind] at h; simp at h
              | ok sc =>
                rw [h4, ok_bind] at h
                cases h5 : condGet s.batch_sev_score i (5 : Rat) with
                | error e => rw [h5, error_bind] at h; simp at h
                | ok ss =>
                  rw [h5, ok_bind] at h
                  cases hq : v.batch_vul_pred_prob with
                  | none => rw [hq] at h; simp [keyGet, error_bind] at h
                  | some qs =>
                    rw [hq] at h
                    simp only [keyGet, ok_bind] at h
                    cases hLG2 : listGet qs i with
                    | error e => rw [hLG2, error_bind] at h; simp at h
                    | ok q =>
                      rw [hLG2, ok_bind] at h
                      simp only [pure_eq_ok, Except.ok.injEq,
                        Option.some.injEq] at h
                      rw [← h]
      · rw [if_neg hp1] at h
        simp [pure_eq_ok] at h

/-- C3, counterexample: the claim that a missing bundle field is always
defaulted and never fails the run is false for the vulnerability
probability field.  With a vulnerable unit and no probability key in
the vulnerability bundle, fusion raises and the whole run is converted
to the failure result instead of a finding with a default. -/
theorem fusion_missing_prob_counterexample :
    analyze_file (Except.ok "int f()\x7b\x7d".data)
        (fun _ => Except.ok { batch_vul_pred := some [1], batch_line_scores := none,
                              batch_vul_pred_prob := none })
        (fun _ => Except.ok { cwe_id := none, cwe_id_prob := none })
        (fun _ => Except.ok { batch_sev_class := none, batch_sev_score := none }) =
      { vulnerabilities := [],
        errors := ["Analysis failed: KeyError: batch_vul_pred_prob"] } := by decide

/-- C3, amended: fusion emits no finding at an index whose prediction
entry is not 1, and absence of the optional fields (line scores, CWE
id, CWE probability, severity class, severity score) is defaulted
without failing — but the prediction and probability fields are
mandatory: when they are present and in range the iteration succeeds
even with every optional field absent. -/
theorem fusion_skip_and_optional_defaults (v : VulnResult) (c : CweResult)
    (s : SevResult) (i : Nat) (func : FunctionUnit) :
    (∀ ps p, v.batch_vul_pred = some ps → ps[i]? = some p → p ≠ 1 →
      analyzeOne v c s i func = Except.ok none) ∧
    (∀ ps qs q, v.batch_vul_pred = some ps → ps[i]? = some 1 →
      v.batch_vul_pred_prob = some qs → qs[i]? = some q →
      v.batch_line_scores = none → c.cwe_id = none → c.cwe_id_prob = none →
      s.batch_sev_class = none → s.batch_sev_score = none →
      ∃ o, analyzeOne v c s i func = Except.ok (some o)) := by
  constructor
  · intro ps p h1 h2 hp
    simp only [analyzeOne, h1, keyGet, ok_bind, listGet_some h2]
    rw [if_neg hp]
    rfl
  · intro ps qs q h1 h2 h3 h4 h5 h6 h7 h8 h9
    refine ⟨{ id := "STATIC-" ++ toString (i + 1), type := "static",
              severity := "Medium",
              message := "Potential " ++ "CWE-119" ++ " vulnerability detected",
              line := func.start_line, cweId := "CWE-119",
              cweDescription := "CWE-119" ++ " vulnerability with " ++
                fmt2 (mkRat 1 2) ++ " confidence",
              source := "CodeGuard Static Analysis", probability := q,
              severityScore := 5 }, ?_⟩
    simp only [analyzeOne, h1, h3, h5, h6, h7, h8, h9, keyGet, ok_bind,
      listGet_some h2, listGet_some h4, condGet_none, pure_eq_ok]
    rfl

/-- C3, witness: a prediction of 0 is skipped, and a vulnerable index
with every optional field absent still emits a finding. -/
theorem fusion_skip_and_optional_defaults_witness :
    analyzeOne { batch_vul_pred := some [0], batch_line_scores := none,
                 batch_vul_pred_prob := some [0] }
      { cwe_id := none, cwe_id_prob := none }
      { batch_sev_class := none, batch_sev_score := none } 0
      { code := "int f()\x7b\x7d".data, start_line := 1, end_line := 1 } =
        Except.ok none ∧
    (∃ o, analyzeOne { batch_vul_pred := some [1], batch_line_scores := none,
                       batch_vul_pred_prob := some [mkRat 3 4] }
      { cwe_id := none, cwe_id_prob := none }
      { batch_sev_class := none, batch_sev_score := none } 0
      { code := "int f()\x7b\x7d".data, start_line := 1, end_line := 1 } =
        Except.ok (some o)) :=
  ⟨(fusion_skip_and_optional_defaults _ _ _ 0 _).1 [0] 0 rfl (by decide) (by decide),
   (fusion_skip_and_optional_defaults _ _ _ 0 _).2 [1] [mkRat 3 4] (mkRat 3 4)
     rfl (by decide) rfl (by decide) rfl rfl rfl rfl rfl⟩

/-- C5, counterexample: a vulnerable index whose probability field is
absent does not produce a finding with the claimed default probability
0.0 — the run fails with a key error instead.  The other bundles are
fully present, so only the probability default is exercised. -/
theorem fusion_default_literals_counterexample :
    analyze_file (Except.ok "int g()\x7b\x7d".data)
        (fun _ => Except.ok { batch_vul_pred := some [1],
                              batch_line_scores := some [[mkRat 1 10, mkRat 4 5]],
                              batch_vul_pred_prob := none })
        (fun _ => Except.ok { cwe_id := some ["CWE-787"],
                              cwe_id_prob := some [mkRat 7 10] })
        (fun _ => Except.ok { batch_sev_class := some ["High"],
                              batch_sev_score := some [8] }) =
      { vulnerabilities := [],
        errors := ["Analysis failed: KeyError: batch_vul_pred_prob"] } := by decide

/-- C5, amended: when all optional bundle fields are absent the emitted
finding carries exactly the documented default literals — CWE id
CWE-119, CWE confidence rendered 0.50, severity class Medium, severity
score 5.0, line at the unit start — but the vulnerability probability
is never defaulted: it is the mandatory probability entry, whose
absence fails the run instead. -/
theorem fusion_default_literals (v : VulnResult) (c : CweResult) (s : SevResult)
    (i : Nat) (func : FunctionUnit) (ps : List Int) (qs : List Rat) (q : Rat)
    (h1 : v.batch_vul_pred = some ps) (h2 : ps[i]? = some 1)
    (h3 : v.batch_vul_pred_prob = some qs) (h4 : qs[i]? = some q)
    (h5 : v.batch_line_scores = none) (h6 : c.cwe_id = none)
    (h7 : c.cwe_id_prob = none) (h8 : s.batch_sev_class = none)
    (h9 : s.batch_sev_score = none) :
    analyzeOne v c s i func = Except.ok (some
      { id := "STATIC-" ++ toString (i + 1)
        type := "static"
        severity := "Medium"
        message := "Potential CWE-119 vulnerability detected"
        line := func.start_line
        cweId := "CWE-119"
        cweDescription := "CWE-119 vulnerability with 0.50 confidence"
        source := "CodeGuard Static Analysis"
        probability := q
        severityScore := 5 }) := by
  simp only [analyzeOne, h1, h3, h5, h6, h7, h8, h9, keyGet, ok_bind,
    listGet_some h2, listGet_some h4, condGet_none, pure_eq_ok]
  rfl

/-- C5, witness: the defaults at a concrete vulnerable index. -/
theorem fusion_default_literals_witness :
    analyzeOne { batch_vul_pred := some [1], batch_line_scores := none,
                 batch_vul_pred_prob := some [mkRat 9 10] }
      { cwe_id := none, cwe_id_prob := none }
      { batch_sev_class := none, batch_sev_score := none } 0
      { code := "int f()\x7b\x7d".data, start_line := 7, end_line := 7 } =
      Except.ok (some
        { id := "STATIC-" ++ toString (0 + 1)
          type := "static"
          severity := "Medium"
          message := "Potential CWE-119 vulnerability detected"
          line := 7
          cweId := "CWE-119"
          cweDescription := "CWE-119 vulnerability with 0.50 confidence"
          source := "CodeGuard Static Analysis"
          probability := mkRat 9 10
          severityScore := 5 }) :=
  fusion_default_literals _ _ _ 0
    { code := "int f()\x7b\x7d".data, start_line := 7, end_line := 7 }
    [1] [mkRat 9 10] (mkRat 9 10) rfl (by decide) rfl (by decide)
    rfl rfl rfl rfl rfl

/-- C4: line localization for a vulnerable index.  Whenever the
prediction entry at i is 1 and the mandatory probability entry is
present (the optional fields need only be in range when present),
exactly one finding is emitted for i.  Its line is the unit start plus
the first index attaining the maximum score when a non-empty score
list is present, and the unit start otherwise; and when the score list
is no longer than the unit's line span, the line lies within the
unit's span. -/
theorem fusion_line_localization (v : VulnResult) (c : CweResult) (s : SevResult)
    (i : Nat) (func : FunctionUnit) (ps : List Int) (qs : List Rat) (q : Rat)
    (h1 : v.batch_vul_pred = some ps) (h2 : ps[i]? = some 1)
    (h3 : v.batch_vul_pred_prob = some qs) (h4 : qs[i]? = some q)
    (hls : ∀ l, v.batch_line_scores = some l → i < l.length)
    (hc1 : ∀ l, c.cwe_id = some l → i < l.length)
    (hc2 : ∀ l, c.cwe_id_prob = some l → i < l.length)
    (hs1 : ∀ l, s.batch_sev_class = some l → i < l.length)
    (hs2 : ∀ l, s.batch_sev_score = some l → i < l.length) :
    ∃ r, analyzeOne v c s i func = Except.ok (some r) ∧
      (v.batch_line_scores = none → r.line = func.start_line) ∧
      (∀ lss ls, v.batch_line_scores = some lss → lss[i]? = some ls →
        (ls = [] → r.line = func.start_line) ∧
        (ls ≠ [] → ∃ k, ∃ hk : k < ls.length,
          r.line = func.start_line + k ∧
          (∀ j (hj : j < ls.length), ls.get ⟨j, hj⟩ ≤ ls.get ⟨k, hk⟩) ∧
          (∀ j (hj : j < ls.length), j < k →
            ls.get ⟨j, hj⟩ < ls.get ⟨k, hk⟩))) ∧
      (func.start_line ≤ func.end_line →
        (∀ lss ls, v.batch_line_scores = some lss → lss[i]? = some ls →
          ls.length ≤ func.end_line - func.start_line + 1) →
        func.start_line ≤ r.line ∧ r.line ≤ func.end_line) := by
  obtain ⟨ls0, hcg0, hn0, hsome0⟩ := condGet_ok_of_inbounds ([] : List Rat) hls
  obtain ⟨cid, hcg1, -, -⟩ := condGet_ok_of_inbounds "CWE-119" hc1
  obtain ⟨cp, hcg2, -, -⟩ := condGet_ok_of_inbounds (mkRat 1 2) hc2
  obtain ⟨sc, hcg3, -, -⟩ := condGet_ok_of_inbounds "Medium" hs1
  obtain ⟨ss, hcg4, -, -⟩ := condGet_ok_of_inbounds (5 : Rat) hs2
  refine ⟨{ id := "STATIC-" ++ toString (i + 1), type := "static", severity := sc,
            message := "Potential " ++ cid ++ " vulnerability detected",
            line := vulnLine func ls0, cweId := cid,
            cweDescription := cid ++ " vulnerability with " ++ fmt2 cp ++ " confidence",
            source := "CodeGuard Static Analysis", probability := q,
            severityScore := ss }, ?_, ?_, ?_, ?_⟩
  · simp only [analyzeOne, h1, keyGet, ok_bind, listGet_some h2, hcg0, hcg1,
      hcg2, hcg3, hcg4, h3, listGet_some h4, pure_eq_ok]
    rfl
  · intro h0
    show vulnLine func ls0 = func.start_line
    rw [hn0 h0]
    exact vulnLine_nil func
  · intro lss ls hsome hgt
    have he : ls = ls0 := by
      have hx := hsome0 lss hsome
      rw [hgt] at hx
      injection hx
    subst he
    constructor
    · intro hnil
      show vulnLine func ls = func.start_line
      rw [hnil]
      exact vulnLine_nil func
    · intro hne
      exact vulnLine_spec func ls hne
  · intro hse hlen
    show func.start_line ≤ vulnLine func ls0 ∧ vulnLine func ls0 ≤ func.end_line
    by_cases hemp : ls0 = []
    · rw [hemp]
      exact ⟨le_refl _, hse⟩
    · obtain ⟨k, hk, heq, -, -⟩ := vulnLine_spec func ls0 hemp
      rw [heq]
      cases hcase : v.batch_line_scores with
      | none => exact absurd (hn0 hcase) hemp
      | some lss =>
        have hlenb := hlen lss ls0 hcase (hsome0 lss hcase)
        constructor
        · omega
        · omega

/-- C4, witness: a unit spanning lines 5 to 7 with scores attaining
their maximum first at index 1 is localized to line 6, inside the
span. -/
theorem fusion_line_localization_witness :
    ∃ r, analyzeOne
        { batch_vul_pred := some [1], batch_line_scores := some [[(0 : Rat), 2, 1]],
          batch_vul_pred_prob := some [mkRat 9 10] }
        { cwe_id := none, cwe_id_prob := none }
        { batch_sev_class := none, batch_sev_score := none } 0
        { code := "a\nb\nc".data, start_line := 5, end_line := 7 } =
          Except.ok (some r) ∧
      (({ batch_vul_pred := some [1], batch_line_scores := some [[(0 : Rat), 2, 1]],
          batch_vul_pred_prob := some [mkRat 9 10] } : VulnResult).batch_line_scores =
          none → r.line = 5) ∧
      (∀ lss ls,
        ({ batch_vul_pred := some [1], batch_line_scores := some [[(0 : Rat), 2, 1]],
           batch_vul_pred_prob := some [mkRat 9 10] } : VulnResult).batch_line_scores =
            some lss → lss[0]? = some ls →
        (ls = [] → r.line = 5) ∧
        (ls ≠ [] → ∃ k, ∃ hk : k < ls.length,
          r.line = 5 + k ∧
          (∀ j (hj : j < ls.length), ls.get ⟨j, hj⟩ ≤ ls.get ⟨k, hk⟩) ∧
          (∀ j (hj : j < ls.length), j < k →
            ls.get ⟨j, hj⟩ < ls.get ⟨k, hk⟩))) ∧
      ((5 : Nat) ≤ 7 →
        (∀ lss ls,
          ({ batch_vul_pred := some [1], batch_line_scores := some [[(0 : Rat), 2, 1]],
             batch_vul_pred_prob := some [mkRat 9 10] } : VulnResult).batch_line_scores =
              some lss → lss[0]? = some ls → ls.length ≤ 7 - 5 + 1) →
        (5 : Nat) ≤ r.line ∧ r.line ≤ 7) :=
  fusion_line_localization
    { batch_vul_pred := some [1], batch_line_scores := some [[(0 : Rat), 2, 1]],
      batch_vul_pred_prob := some [mkRat 9 10] }
    { cwe_id := none, cwe_id_prob := none }
    { batch_sev_class := none, batch_sev_score := none } 0
    { code := "a\nb\nc".data, start_line := 5, end_line := 7 }
    [1] [mkRat 9 10] (mkRat 9 10) rfl (by decide) rfl (by decide)
    (by intro l hl; cases hl; decide)
    (by intro l hl; cases hl)
    (by intro l hl; cases hl)
    (by intro l hl; cases hl)
    (by intro l hl; cases hl)

/-- C2, witness: at unit index 3 the emitted finding has id STATIC-4
even though it is the first finding of its run. -/
theorem finding_id_from_unit_index_witness :
    analyzeOne { batch_vul_pred := some [0, 0, 0, 1], batch_line_scores := none,
                 batch_vul_pred_prob := some [(0 : Rat), 0, 0, 0] }
      { cwe_id := none, cwe_id_prob := none }
      { batch_sev_class := none, batch_sev_score := none } 3
      { code := "int f()\x7b\x7d".data, start_line := 4, end_line := 4 } =
      Except.ok (some
        { id := "STATIC-4", type := "static", severity := "Medium",
          message := "Potential CWE-119 vulnerability detected",
          line := 4, cweId := "CWE-119",
          cweDescription := "CWE-119 vulnerability with 0.50 confidence",
          source := "CodeGuard Static Analysis", probability := 0,
          severityScore := 5 }) ∧
    ({ id := "STATIC-4", type := "static", severity := "Medium",
       message := "Potential CWE-119 vulnerability detected",
       line := 4, cweId := "CWE-119",
       cweDescription := "CWE-119 vulnerability with 0.50 confidence",
       source := "CodeGuard Static Analysis", probability := 0,
       severityScore := 5 } : Vulnerability).id = "STATIC-" ++ toString (3 + 1) :=
  ⟨by rfl,
    finding_id_from_unit_index
      { batch_vul_pred := some [0, 0, 0, 1], batch_line_scores := none,
        batch_vul_pred_prob := some [(0 : Rat), 0, 0, 0] }
      { cwe_id := none, cwe_id_prob := none }
      { batch_sev_class := none, batch_sev_score := none } 3
      { code := "int f()\x7b\x7d".data, start_line := 4, end_line := 4 }
      { id := "STATIC-4", type := "static", severity := "Medium",
        message := "Potential CWE-119 vulnerability detected",
        line := 4, cweId := "CWE-119",
        cweDescription := "CWE-119 vulnerability with 0.50 confidence",
        source := "CodeGuard Static Analysis", probability := 0,
        severityScore := 5 } (by rfl)⟩
